import Mathlib

/-!
Verification of the KDL ⇄ Nushell value conversion plugin
(`src/from.rs`, `src/to.rs`, `src/lib.rs`).

Shallow embedding conventions:
* Source extents (`Span`) are omitted from the model: every claim under
  consideration compares values "ignoring source extents", and the spec
  treats position tracking as an orthogonal, layered concern.  All span
  bookkeeping in the source (`Span::new`, `Span::unknown`, `set_span`)
  is therefore dropped.
* `f64` values are modelled opaquely by the textual representation they
  travel through (`F64.repr`): no claim depends on floating-point
  arithmetic, only on which conversion branch is taken.  The success or
  failure of Rust's `str::parse::<f64>` is modelled exactly, by its
  documented grammar.
* Rust panics (`todo!()`, `.unwrap()` on an `Err`) are modelled as the
  distinguished outcome `Err.panic`, kept apart from the structured
  `LabeledError` results (`Err.labeled`).
* The external KDL text parser (`KdlDocument::parse*`) is out of scope
  per the spec; where its result matters it is passed in as an explicit
  function argument.
-/

/-- Opaque model of an `f64`: carries only the text form the value
travels through.  No claim depends on float arithmetic. -/
structure F64 where
  repr : String
deriving DecidableEq

/-- The generic Nushell value model restricted to the closed grammar of
spec §3: Nothing, Bool, Int, Float, String, List, Record (an ordered
`String → Value` mapping with unique keys). -/
inductive Value where
  | nothing : Value
  | bool (b : Bool) : Value
  | int (i : Int) : Value
  | float (f : F64) : Value
  | string (s : String) : Value
  | list (vals : List Value) : Value
  | record (fields : List (String × Value)) : Value

/-- Scalar values of the document format (`kdl::KdlValue`, v2 crate):
String, Integer (`i128`), Float (`f64`), Bool, Null. -/
inductive KdlValue where
  | string (s : String) : KdlValue
  | integer (i : Int) : KdlValue
  | float (f : F64) : KdlValue
  | bool (b : Bool) : KdlValue
  | null : KdlValue
deriving DecidableEq

/-- A node entry (`kdl::KdlEntry`): an optional property name plus one
scalar value.  `name = none` is a positional argument, `name = some n`
a named property. -/
structure KdlEntry where
  name : Option String
  value : KdlValue
deriving DecidableEq

/-- A document node (`kdl::KdlNode`): name, ordered entries, optional
children document (modelled by its node list). -/
inductive KdlNode where
  | mk (name : String) (entries : List KdlEntry) (children : Option (List KdlNode)) : KdlNode

/-- A document (`kdl::KdlDocument`): its ordered node list. -/
abbrev KdlDocument := List KdlNode

def KdlNode.name : KdlNode → String
  | .mk n _ _ => n

def KdlNode.entries : KdlNode → List KdlEntry
  | .mk _ es _ => es

def KdlNode.children : KdlNode → Option (List KdlNode)
  | .mk _ _ c => c

/-- The ordered backing store of a `nu_protocol::Record`. -/
abbrev Record := List (String × Value)

/-- Model of `nu_protocol::Record::insert`: if the column already
exists, replace its value in place (the key keeps its position);
otherwise push the new column at the end. -/
def recordInsert : Record → String → Value → Record
  | [], k, v => [(k, v)]
  | (k', v') :: rest, k, v =>
    if k' = k then (k', v) :: rest else (k', v') :: recordInsert rest k v

/-- Model of `nu_protocol::Record::get`: value of the first (unique)
column with the given name. -/
def recordGet : Record → String → Option Value
  | [], _ => none
  | (k', v) :: rest, k => if k' = k then some v else recordGet rest k

/-- The ordered column names of a record. -/
def recordKeys (r : Record) : List String :=
  r.map Prod.fst

/-- Decimal digit character, `'0'` through `'9'`. -/
def digitChar (d : Nat) : Char :=
  Char.ofNat (48 + d)

/-- Little-endian decimal digits of `n`, with explicit fuel so the
definition is structurally recursive.  Fuel 128 is exact for every
`n < 10 ^ 128`, far beyond the `i128` range the document format uses. -/
def natDigitsRevFuel : Nat → Nat → List Nat
  | 0, _ => []
  | fuel + 1, n => if n = 0 then [] else n % 10 :: natDigitsRevFuel fuel (n / 10)

/-- Decimal rendering of a natural number (character list). -/
def renderNatChars (n : Nat) : List Char :=
  if n = 0 then ['0'] else (natDigitsRevFuel 128 n).reverse.map digitChar

/-- Decimal rendering of a natural number, as Rust's `Display` for
unsigned integers produces it. -/
def renderNat (n : Nat) : String :=
  ⟨renderNatChars n⟩

/-- Model of Rust's `Display` for `i128` (the `val.to_string()` call in
`parse_entry` for `KdlValue::Integer`): optional minus sign followed by
decimal digits. -/
def renderInt (i : Int) : String :=
  if i < 0 then "-" ++ renderNat i.natAbs else renderNat i.natAbs

/-- Model of the `val.to_string()` call for `KdlValue::Float`: the
float's textual form, opaque in this embedding. -/
def renderFloat (f : F64) : String :=
  f.repr

/-- Strip one optional leading sign, returning the sign as `1` or `-1`
together with the remaining characters, as Rust's integer `FromStr`
does. -/
def splitSign (cs : List Char) : Int × List Char :=
  match cs with
  | [] => (1, [])
  | c :: r => if c = '+' then (1, r) else if c = '-' then (-1, r) else (1, c :: r)

/-- Digit-run parser used by the integer model: a nonempty all-digit
character list denotes the evident natural number. -/
def parseNatDigits (cs : List Char) : Option Nat :=
  if cs = [] then none
  else if cs.all Char.isDigit then
    some (Nat.ofDigits 10 ((cs.map fun c => c.toNat - 48).reverse))
  else none

/-- Body of the `i64` model once the sign is split off: parse the digit
run and require the signed value to lie in the 64-bit range. -/
def parseI64Core (sign : Int) (digits : List Char) : Option Int :=
  match parseNatDigits digits with
  | some n =>
    let i : Int := sign * n
    if -(2 ^ 63) ≤ i ∧ i ≤ 2 ^ 63 - 1 then some i else none
  | none => none

/-- Model of `str::parse::<i64>()`: optional sign, nonempty digit run,
value required to lie in the signed 64-bit range. -/
def parseI64 (s : String) : Option Int :=
  parseI64Core (splitSign s.data).1 (splitSign s.data).2

/-- Case-insensitive check for the special float spellings `inf`,
`infinity`, `nan` accepted by Rust's `f64` grammar. -/
def isInfNan (cs : List Char) : Bool :=
  let l := cs.map Char.toLower
  l = "inf".data || l = "infinity".data || l = "nan".data

/-- Split a character list at the first separator hit, if any. -/
def splitAtFirst (sep : Char → Bool) : List Char → List Char × Option (List Char)
  | [] => ([], none)
  | c :: r =>
    if sep c then ([], some r)
    else (c :: (splitAtFirst sep r).1, (splitAtFirst sep r).2)

/-- Decimal part of Rust's `f64` grammar (after the optional sign):
`Digits '.'? Digits? Exp?` or `'.' Digits Exp?` with
`Exp ::= ('e' | 'E') ('+' | '-')? Digits`. -/
def isDecimalText (cs : List Char) : Bool :=
  let mant := (splitAtFirst (fun c => c = 'e' || c = 'E') cs).1
  let expPart := (splitAtFirst (fun c => c = 'e' || c = 'E') cs).2
  let intPart := (splitAtFirst (fun c => c = '.') mant).1
  let fracPart := (splitAtFirst (fun c => c = '.') mant).2
  let mantOk :=
    match fracPart with
    | none => !intPart.isEmpty && intPart.all Char.isDigit
    | some frac =>
      intPart.all Char.isDigit && frac.all Char.isDigit
        && (!intPart.isEmpty || !frac.isEmpty)
  match expPart with
  | none => mantOk
  | some ex =>
    mantOk && !(splitSign ex).2.isEmpty && (splitSign ex).2.all Char.isDigit

/-- Model of the success condition of `str::parse::<f64>()`: Rust's
documented grammar for float literals. -/
def isF64Text (s : String) : Bool :=
  let cs := (splitSign s.data).2
  isInfNan cs || isDecimalText cs

/-- Model of `str::parse::<f64>()`: succeeds exactly on the grammar
above; the resulting float is modelled opaquely by the parsed text. -/
def parseF64 (s : String) : Option F64 :=
  if isF64Text s then some ⟨s⟩ else none

/-- Scalar decoding inside `parse_entry` (`from.rs`): document string,
boolean and null map verbatim; every other scalar (`Integer`, `Float`)
is rendered to text, then parsed as `i64`, else as `f64`, else kept as
the rendered text. -/
def decodeScalar (v : KdlValue) : Value :=
  match v with
  | .string s => .string s
  | .bool b => .bool b
  | .null => .nothing
  | .integer i =>
    let s := renderInt i
    match parseI64 s with
    | some n => .int n
    | none =>
      match parseF64 s with
      | some f => .float f
      | none => .string s
  | .float f =>
    let s := renderFloat f
    match parseI64 s with
    | some n => .int n
    | none =>
      match parseF64 s with
      | some f => .float f
      | none => .string s

/-- `parse_entry` (`from.rs`): decode the entry scalar, then wrap it as
a single-key record when the entry is a named property. -/
def parse_entry (e : KdlEntry) : Value :=
  let value := decodeScalar e.value
  match e.name with
  | some n => .record [(n, value)]
  | none => value

mutual

/-- `parse_node` (`from.rs`): convert the entries in order; a node with
children yields the children record directly when there are no entries
and otherwise the two-key `entries`/`children` record; a childless node
collapses zero/one/many entries to Nothing/the bare value/a list. -/
def parse_node : KdlNode → Value
  | .mk _ entries children =>
    let evs := entries.map parse_entry
    match children with
    | some ch =>
      let childVal := Value.record (documentRecordAux [] ch)
      if evs.isEmpty then childVal
      else
        let entriesVal :=
          match evs with
          | [e] => e
          | _ => Value.list evs
        Value.record [("entries", entriesVal), ("children", childVal)]
    | none =>
      match evs with
      | [] => Value.nothing
      | [e] => e
      | _ => Value.list evs

/-- The record-building loop of `parse_document` (`from.rs`): insert
`name → parse_node node` for each node, in document order, into the
accumulated record. -/
def documentRecordAux : Record → List KdlNode → Record
  | r, [] => r
  | r, n :: rest => documentRecordAux (recordInsert r n.name (parse_node n)) rest

end

/-- The record built by `parse_document` for a document. -/
def documentRecord (doc : KdlDocument) : Record :=
  documentRecordAux [] doc

/-- `parse_document` (`from.rs`): a record mapping each node name to
its converted node, in document order. -/
def parse_document (doc : KdlDocument) : Value :=
  Value.record (documentRecord doc)

/-- Outcome of an encoder/decoder call: a structured `LabeledError`
(`Err.labeled`) or an aborted process (`Err.panic`, the model of a Rust
`todo!()` or of `.unwrap()` hitting an `Err`). -/
inductive Err where
  | labeled (msg : String) : Err
  | panic : Err
deriving DecidableEq

/-- Model of Rust's `.unwrap()` applied to a `Result` inside
`build_node`: an `Ok` passes through, any `Err` aborts the process. -/
def unwrapPanic {α : Type} : Except Err α → Except Err α
  | .ok a => .ok a
  | .error _ => .error .panic

/-- `build_entry` (`to.rs`): a single-key record becomes a named
property entry (its value must be a scalar or null), a scalar becomes a
positional entry, a record of any other arity is a labeled error, and
every remaining shape hits the `todo!()` arm. -/
def build_entry (v : Value) : Except Err KdlEntry :=
  match v with
  | .record fields =>
    if fields.length ≠ 1 then
      .error (.labeled "entry should be either a record with one key")
    else
      match fields with
      | [] => .error .panic
      | (key, val) :: _ =>
        match val with
        | .string s => .ok ⟨some key, .string s⟩
        | .int i => .ok ⟨some key, .integer i⟩
        | .float f => .ok ⟨some key, .float f⟩
        | .bool b => .ok ⟨some key, .bool b⟩
        | .nothing => .ok ⟨some key, .null⟩
        | _ =>
          .error (.labeled "value not supported, expected string, int, float, bool or null")
  | .string s => .ok ⟨none, .string s⟩
  | .int i => .ok ⟨none, .integer i⟩
  | .float f => .ok ⟨none, .float f⟩
  | .bool b => .ok ⟨none, .bool b⟩
  | .nothing => .ok ⟨none, .null⟩
  | .list _ => .error .panic

/-- The entry-building loop of `build_node` for a list value: each
element goes through `build_entry` followed by `.unwrap()`. -/
def buildEntriesList : List Value → Except Err (List KdlEntry)
  | [] => .ok []
  | v :: rest => do
    let e ← unwrapPanic (build_entry v)
    let es ← buildEntriesList rest
    .ok (e :: es)

/-- `build_node` (`to.rs`): children are cleared; Nothing yields no
entries, a scalar yields one positional entry, a list one entry per
element (each through `.unwrap()`), and a record value hits the
`todo!()` arm. -/
def build_node (name : String) (v : Value) : Except Err KdlNode :=
  match v with
  | .nothing => .ok (.mk name [] none)
  | .string _ | .int _ | .float _ | .bool _ => do
    let e ← unwrapPanic (build_entry v)
    .ok (.mk name [e] none)
  | .list vals => do
    let es ← buildEntriesList vals
    .ok (.mk name es none)
  | .record _ => .error .panic

/-- The node-building loop of `build_document`: one node per record
column, errors propagated with `?`. -/
def buildNodesList : List (String × Value) → Except Err (List KdlNode)
  | [] => .ok []
  | (k, v) :: rest => do
    let n ← build_node k v
    let ns ← buildNodesList rest
    .ok (n :: ns)

/-- `build_document` (`to.rs`): the input must be a record
(anything else is the labeled error produced by `as_record`'s
`map_err`); each column becomes one node, in record order. -/
def build_document (v : Value) : Except Err KdlDocument :=
  match v with
  | .record fields => buildNodesList fields
  | _ => .error (.labeled "Expected a record")

/-- `KDL::from` (`lib.rs`): require a string input, then dispatch on
the dialect flags: `--v1` parses legacy only, `--v1-fallback` tries the
modern dialect and retries once with the legacy one, the default is
strict modern.  The external text parsers are passed in explicitly; the
real code interpolates the parse diagnostic after the fixed message
prefix, modelled here by string append. -/
def KDL.from (parseV2 parseV1 : String → Except String KdlDocument)
    (forceV1 v1Fallback : Bool) (input : Value) : Except Err Value :=
  match input with
  | .string s =>
    if forceV1 then
      match parseV1 s with
      | .ok doc => .ok (parse_document doc)
      | .error e => .error (.labeled ("invalid KDL v1 format: " ++ e))
    else if v1Fallback then
      match parseV2 s with
      | .ok doc => .ok (parse_document doc)
      | .error _ =>
        match parseV1 s with
        | .ok doc => .ok (parse_document doc)
        | .error e => .error (.labeled ("invalid KDL format (tried v2 and v1): " ++ e))
    else
      match parseV2 s with
      | .ok doc => .ok (parse_document doc)
      | .error e => .error (.labeled ("invalid KDL v2 format: " ++ e))
  | _ => .error (.labeled "input is not a string")

/-- Spec-side restatement of the node-shape classification of spec
§4.1, written from the claim's words: with children, no entries gives
the children record unwrapped, otherwise the two-key
`entries`/`children` record whose `entries` key collapses one/many;
without children, zero/one/many entries give Nothing/the bare
value/a list. -/
def parse_nodeSpec (n : KdlNode) : Value :=
  let evs := n.entries.map parse_entry
  match n.children with
  | some ch =>
    if evs.length = 0 then parse_document ch
    else
      Value.record
        [("entries", if evs.length = 1 then evs.headD Value.nothing else Value.list evs),
         ("children", parse_document ch)]
  | none =>
    if evs.length = 0 then Value.nothing
    else if evs.length = 1 then evs.headD Value.nothing
    else Value.list evs

/-- C1: decoding a document node follows the node-shape classification
exactly: children with no entries give the children record directly;
children with entries give a record with exactly the keys `entries`
(single value if one entry, else a list of the converted entries) and
`children`; no children collapse zero/one/many entries to Nothing, the
unwrapped value, or a list in entry order. -/
theorem parse_node_follows_shape_classification :
    ∀ n : KdlNode, parse_node n = parse_nodeSpec n := by
  intro n
  obtain ⟨name, entries, children⟩ := n
  cases children <;>
    rcases entries with _ | ⟨e, _ | ⟨f, rest⟩⟩ <;> rfl

/-- C4: a named-property entry decodes to the single-key record mapping
the property name to the decoded scalar, never a bare value; a
positional argument decodes to the scalar directly with no wrapping. -/
theorem parse_entry_property_wrapping :
    ∀ (n : String) (v : KdlValue),
      parse_entry ⟨some n, v⟩ = Value.record [(n, decodeScalar v)]
        ∧ parse_entry ⟨none, v⟩ = decodeScalar v :=
  fun _ _ => ⟨rfl, rfl⟩

/-- Spec-side numeric fallback chain, from the claim's words: integer
parse first, float parse on failure, rendered text on failure. -/
def numericFallbackSpec (s : String) : Value :=
  match parseI64 s with
  | some n => .int n
  | none =>
    match parseF64 s with
    | some f => .float f
    | none => .string s

/-- Spec-side restatement of the scalar decoding rules: string, bool
and null verbatim; any other scalar rendered to text and run through
the numeric fallback chain. -/
def decodeScalarSpec (v : KdlValue) : Value :=
  match v with
  | .string s => .string s
  | .bool b => .bool b
  | .null => .nothing
  | .integer i => numericFallbackSpec (renderInt i)
  | .float f => numericFallbackSpec (renderFloat f)

/-- C5: scalar decoding maps a document string to a String verbatim, a
boolean to a Bool, null to Nothing, and every other scalar through the
render-then-int-then-float-then-string fallback; being a total
function, it never fails on a syntactically valid entry. -/
theorem decodeScalar_follows_fallback_chain :
    ∀ v : KdlValue, decodeScalar v = decodeScalarSpec v := by
  intro v
  cases v <;> rfl

/-- C3: encoding the record `{greet: "hello", nums: [1, 2, 3]}` to a
document and decoding that document returns the record unchanged
(source extents are absent from the model; rendering the document tree
to text and reparsing it is the external format library, assumed
faithful and out of scope per spec §1). -/
theorem round_trip_greet_nums :
    Except.map parse_document
        (build_document (Value.record
          [("greet", Value.string "hello"),
           ("nums", Value.list [Value.int 1, Value.int 2, Value.int 3])]))
      = Except.ok (Value.record
          [("greet", Value.string "hello"),
           ("nums", Value.list [Value.int 1, Value.int 2, Value.int 3])]) :=
  rfl

/-- Discriminator for the top-level record requirement of the
encoder. -/
def isRecordValue : Value → Bool
  | .record _ => true
  | _ => false

/-- C7: the encoder accepts only a record at the top level: every
non-record input yields the labeled "Expected a record" error (and no
document), while the record `{a: 1}` encodes successfully. -/
theorem build_document_requires_record :
    (∀ v : Value, isRecordValue v = false →
        build_document v = .error (.labeled "Expected a record"))
      ∧ build_document (Value.record [("a", Value.int 1)])
          = .ok [KdlNode.mk "a" [⟨none, KdlValue.integer 1⟩] none] := by
  constructor
  · intro v h
    cases v <;> first | rfl | simp [isRecordValue] at h
  · rfl

/-- Witness for C7 at the bare value `5`. -/
theorem build_document_requires_record_witness :
    build_document (Value.int 5) = .error (.labeled "Expected a record") :=
  build_document_requires_record.1 (Value.int 5) rfl

/-- C8 counterexample: the wrong-arity error message produced by
`build_entry` is "entry should be either a record with one key", not
the claimed "entry should be a record with exactly one key". -/
theorem build_entry_arity_message_counterexample :
    build_entry (Value.record [])
        = .error (.labeled "entry should be either a record with one key")
      ∧ "entry should be either a record with one key"
          ≠ "entry should be a record with exactly one key" :=
  ⟨rfl, by decide⟩

/-- C8 (amended): a single-key record `{k → v}` yields a named property
entry named `k` when `v` is Nothing/Bool/Int/Float/String and the
labeled error "value not supported, expected string, int, float, bool
or null" otherwise; a record with zero keys or more than one key yields
the labeled error "entry should be either a record with one key". -/
theorem build_entry_record_shapes :
    (∀ (k s : String), build_entry (Value.record [(k, Value.string s)])
        = .ok ⟨some k, KdlValue.string s⟩)
      ∧ (∀ (k : String) (i : Int), build_entry (Value.record [(k, Value.int i)])
          = .ok ⟨some k, KdlValue.integer i⟩)
      ∧ (∀ (k : String) (f : F64), build_entry (Value.record [(k, Value.float f)])
          = .ok ⟨some k, KdlValue.float f⟩)
      ∧ (∀ (k : String) (b : Bool), build_entry (Value.record [(k, Value.bool b)])
          = .ok ⟨some k, KdlValue.bool b⟩)
      ∧ (∀ k : String, build_entry (Value.record [(k, Value.nothing)])
          = .ok ⟨some k, KdlValue.null⟩)
      ∧ (∀ (k : String) (vs : List Value), build_entry (Value.record [(k, Value.list vs)])
          = .error (.labeled "value not supported, expected string, int, float, bool or null"))
      ∧ (∀ (k : String) (fs : List (String × Value)),
          build_entry (Value.record [(k, Value.record fs)])
            = .error (.labeled "value not supported, expected string, int, float, bool or null"))
      ∧ build_entry (Value.record [])
          = .error (.labeled "entry should be either a record with one key")
      ∧ (∀ (k1 : String) (v1 : Value) (k2 : String) (v2 : Value)
          (rest : List (String × Value)),
          build_entry (Value.record ((k1, v1) :: (k2, v2) :: rest))
            = .error (.labeled "entry should be either a record with one key")) :=
  ⟨fun _ _ => rfl, fun _ _ => rfl, fun _ _ => rfl, fun _ _ => rfl, fun _ => rfl,
   fun _ _ => rfl, fun _ _ => rfl, rfl, fun _ _ _ _ _ => rfl⟩

/-- C2: the encoder terminates the process, rather than returning a
structured error, on each shape the claim singles out: a record field
whose value is itself a record (`todo!()` in `build_node`), a list
containing a list (`todo!()` in `build_entry` behind `.unwrap()`), and
a list containing a multi-key record (`Err` hit by `.unwrap()`). -/
theorem build_document_panics_on_unsupported_shapes :
    build_document (Value.record [("a", Value.record [("b", Value.int 1)])])
        = .error .panic
      ∧ build_document (Value.record [("a", Value.list [Value.list []])])
          = .error .panic
      ∧ build_document (Value.record
            [("a", Value.list [Value.record [("x", Value.int 1), ("y", Value.int 2)]])])
          = .error .panic :=
  ⟨rfl, rfl, rfl⟩

/-- C6: for text the legacy parser accepts and the modern parser
rejects, the default mode surfaces the modern parse error, while the
fallback mode retries once with the legacy dialect and returns exactly
the record that forced legacy parsing returns; when both dialects
reject, the surfaced message notes that both were attempted. -/
theorem from_dialect_fallback :
    ∀ (parseV2 parseV1 : String → Except String KdlDocument) (s : String),
      (∀ (doc : KdlDocument) (e : String), parseV2 s = .error e → parseV1 s = .ok doc →
        KDL.from parseV2 parseV1 false false (Value.string s)
            = .error (.labeled ("invalid KDL v2 format: " ++ e))
          ∧ KDL.from parseV2 parseV1 false true (Value.string s)
              = .ok (parse_document doc)
          ∧ KDL.from parseV2 parseV1 true false (Value.string s)
              = .ok (parse_document doc))
      ∧ (∀ e2 e1 : String, parseV2 s = .error e2 → parseV1 s = .error e1 →
          KDL.from parseV2 parseV1 false true (Value.string s)
            = .error (.labeled ("invalid KDL format (tried v2 and v1): " ++ e1))) := by
  intro parseV2 parseV1 s
  constructor
  · intro doc e h2 h1
    refine ⟨?_, ?_, ?_⟩ <;> simp [KDL.from, h2, h1]
  · intro e2 e1 h2 h1
    simp [KDL.from, h2, h1]

/-- Witness for C6 with concrete parser outcomes. -/
theorem from_dialect_fallback_witness :
    (KDL.from (fun _ => .error "v2err") (fun _ => .ok []) false false (Value.string "x")
        = .error (.labeled ("invalid KDL v2 format: " ++ "v2err"))
      ∧ KDL.from (fun _ => .error "v2err") (fun _ => .ok []) false true (Value.string "x")
          = .ok (parse_document [])
      ∧ KDL.from (fun _ => .error "v2err") (fun _ => .ok []) true false (Value.string "x")
          = .ok (parse_document []))
    ∧ KDL.from (fun _ => .error "v2err") (fun _ => .error "v1err") false true
          (Value.string "x")
        = .error (.labeled ("invalid KDL format (tried v2 and v1): " ++ "v1err")) :=
  ⟨(from_dialect_fallback (fun _ => .error "v2err") (fun _ => .ok []) "x").1 [] "v2err"
      rfl rfl,
   (from_dialect_fallback (fun _ => .error "v2err") (fun _ => .error "v1err") "x").2
      "v2err" "v1err" rfl rfl⟩

/-- The last node with a given name, in document order
(spec-side helper for the last-write-wins claim). -/
def lastNamed (name : String) : List KdlNode → Option KdlNode
  | [] => none
  | n :: rest =>
    match lastNamed name rest with
    | some m => some m
    | none => if n.name = name then some n else none

/-- First-occurrence deduplication of a name list (spec-side helper for
the key-position claim): each name keeps the position of its first
occurrence. -/
def dedupKeepFirst : List String → List String
  | [] => []
  | k :: ks => k :: dedupKeepFirst (ks.filter fun k' => decide (k' ≠ k))
termination_by l => l.length
decreasing_by
  simp only [List.length_cons]
  exact Nat.lt_succ_of_le (List.length_filter_le _ _)

theorem recordGet_recordInsert (r : Record) (k q : String) (v : Value) :
    recordGet (recordInsert r k v) q = if k = q then some v else recordGet r q := by
  induction r with
  | nil => rfl
  | cons hd tl ih =>
    obtain ⟨ek, w⟩ := hd
    simp only [recordInsert]
    by_cases hek : ek = k
    · subst hek
      by_cases hq : ek = q
      · subst hq
        simp [recordGet]
      · simp [recordGet, hq]
    · simp only [if_neg hek]
      by_cases hq : ek = q
      · subst hq
        have hk : ¬k = ek := fun h => hek h.symm
        simp [recordGet, hk]
      · simp [recordGet, hq, ih]

theorem recordKeys_recordInsert (r : Record) (k : String) (v : Value) :
    recordKeys (recordInsert r k v)
      = if k ∈ recordKeys r then recordKeys r else recordKeys r ++ [k] := by
  induction r with
  | nil => simp [recordInsert, recordKeys]
  | cons hd tl ih =>
    obtain ⟨ek, w⟩ := hd
    simp only [recordInsert]
    by_cases hek : ek = k
    · subst hek
      simp [recordKeys]
    · have hk : ¬k = ek := fun h => hek h.symm
      simp only [if_neg hek, recordKeys, List.map_cons] at ih ⊢
      rw [ih]
      by_cases hm : k ∈ List.map Prod.fst tl
      · simp [hm, hk]
      · simp [hm, hk]

theorem recordGet_documentRecordAux (l : List KdlNode) :
    ∀ (r : Record) (q : String),
      recordGet (documentRecordAux r l) q
        = match lastNamed q l with
          | some n => some (parse_node n)
          | none => recordGet r q := by
  induction l with
  | nil => intro r q; rfl
  | cons n rest ih =>
    intro r q
    simp only [documentRecordAux, lastNamed]
    rw [ih]
    cases h : lastNamed q rest with
    | some m => rfl
    | none =>
      simp only [recordGet_recordInsert]
      by_cases hq : n.name = q
      · simp [hq]
      · simp [hq]

theorem recordKeys_documentRecordAux (l : List KdlNode) :
    ∀ r : Record,
      recordKeys (documentRecordAux r l)
        = recordKeys r
            ++ dedupKeepFirst ((l.map KdlNode.name).filter
                  fun k => decide (k ∉ recordKeys r)) := by
  induction l with
  | nil =>
    intro r
    simp [documentRecordAux, dedupKeepFirst]
  | cons n rest ih =>
    intro r
    simp only [documentRecordAux, List.map_cons, List.filter_cons]
    rw [ih, recordKeys_recordInsert]
    by_cases hm : n.name ∈ recordKeys r
    · simp [hm]
    · rw [if_neg hm, if_pos (decide_eq_true hm)]
      rw [dedupKeepFirst]
      have hfilter :
          (rest.map KdlNode.name).filter
              (fun k => decide (k ∉ recordKeys r ++ [n.name]))
            = ((rest.map KdlNode.name).filter (fun k => decide (k ∉ recordKeys r))).filter
                (fun k => decide (k ≠ n.name)) := by
        rw [List.filter_filter]
        apply List.filter_congr
        intro a _
        by_cases h1 : a = n.name <;> by_cases h2 : a ∈ recordKeys r <;>
          simp [h1, h2, List.mem_append]
      rw [hfilter]
      simp

/-- C9: when several nodes share a name the decoded record maps that
name to the last such node's value (last-write-wins), and the record's
key sequence is the node-name sequence deduplicated keeping first
occurrences, so an overwritten key keeps the position where it first
appeared. -/
theorem parse_document_last_write_wins :
    ∀ (doc : KdlDocument) (name : String),
      parse_document doc = Value.record (documentRecord doc)
        ∧ recordGet (documentRecord doc) name = (lastNamed name doc).map parse_node
        ∧ recordKeys (documentRecord doc) = dedupKeepFirst (doc.map KdlNode.name) := by
  intro doc name
  refine ⟨rfl, ?_, ?_⟩
  · rw [show documentRecord doc = documentRecordAux [] doc from rfl,
      recordGet_documentRecordAux]
    cases lastNamed name doc <;> rfl
  · rw [show documentRecord doc = documentRecordAux [] doc from rfl,
      recordKeys_documentRecordAux]
    simp [recordKeys]

theorem isDigit_ne_plus {c : Char} (h : c.isDigit = true) : c ≠ '+' := by
  intro hEq
  subst hEq
  revert h
  decide

theorem isDigit_ne_minus {c : Char} (h : c.isDigit = true) : c ≠ '-' := by
  intro hEq
  subst hEq
  revert h
  decide

theorem digitChar_isDigit {d : Nat} (h : d < 10) : (digitChar d).isDigit = true := by
  interval_cases d <;> decide

theorem digitChar_toNat_sub {d : Nat} (h : d < 10) : (digitChar d).toNat - 48 = d := by
  interval_cases d <;> decide

theorem natDigitsRevFuel_mem_lt (fuel : Nat) :
    ∀ n d : Nat, d ∈ natDigitsRevFuel fuel n → d < 10 := by
  induction fuel with
  | zero => intro n d hd; simp [natDigitsRevFuel] at hd
  | succ f ih =>
    intro n d hd
    by_cases h0 : n = 0
    · simp [natDigitsRevFuel, h0] at hd
    · simp only [natDigitsRevFuel, if_neg h0, List.mem_cons] at hd
      rcases hd with h | h
      · omega
      · exact ih _ _ h

theorem ofDigits_natDigitsRevFuel (fuel : Nat) :
    ∀ n : Nat, n < 10 ^ fuel → Nat.ofDigits 10 (natDigitsRevFuel fuel n) = n := by
  induction fuel with
  | zero =>
    intro n h
    have hn : n = 0 := by simpa using h
    subst hn
    simp [natDigitsRevFuel, Nat.ofDigits_nil]
  | succ f ih =>
    intro n h
    by_cases h0 : n = 0
    · subst h0
      simp [natDigitsRevFuel, Nat.ofDigits_nil]
    · have hlt : n / 10 < 10 ^ f :=
        (Nat.div_lt_iff_lt_mul (by norm_num)).mpr (by rw [← pow_succ]; exact h)
      simp only [natDigitsRevFuel, if_neg h0]
      rw [Nat.ofDigits_cons, ih (n / 10) hlt]
      omega

theorem natDigitsRevFuel_ne_nil (fuel n : Nat) (hf : 0 < fuel) (h0 : n ≠ 0) :
    natDigitsRevFuel fuel n ≠ [] := by
  cases fuel with
  | zero => omega
  | succ f => simp [natDigitsRevFuel, h0]

theorem renderNatChars_ne_nil (n : Nat) : renderNatChars n ≠ [] := by
  unfold renderNatChars
  by_cases h0 : n = 0
  · simp [h0]
  · rw [if_neg h0]
    intro hEq
    exact natDigitsRevFuel_ne_nil 128 n (by norm_num) h0 (by simpa using hEq)

theorem renderNatChars_all_digit (n : Nat) :
    (renderNatChars n).all Char.isDigit = true := by
  unfold renderNatChars
  by_cases h0 : n = 0
  · rw [if_pos h0]; decide
  · rw [if_neg h0, List.all_eq_true]
    intro c hc
    rw [List.mem_map] at hc
    obtain ⟨d, hd, rfl⟩ := hc
    exact digitChar_isDigit (natDigitsRevFuel_mem_lt 128 n d (List.mem_reverse.mp hd))

theorem parseNatDigits_renderNatChars (n : Nat) (h : n < 10 ^ 128) :
    parseNatDigits (renderNatChars n) = some n := by
  by_cases h0 : n = 0
  · subst h0; decide
  · unfold parseNatDigits
    rw [if_neg (renderNatChars_ne_nil n), if_pos (renderNatChars_all_digit n)]
    have hchars : renderNatChars n = (natDigitsRevFuel 128 n).reverse.map digitChar := by
      rw [renderNatChars, if_neg h0]
    rw [hchars, List.map_map]
    have hmap : ((natDigitsRevFuel 128 n).reverse.map
          ((fun c => c.toNat - 48) ∘ digitChar))
        = (natDigitsRevFuel 128 n).reverse := by
      conv_rhs => rw [← List.map_id ((natDigitsRevFuel 128 n).reverse)]
      apply List.map_congr_left
      intro d hd
      simp only [Function.comp_apply, id_eq]
      exact digitChar_toNat_sub (natDigitsRevFuel_mem_lt 128 n d (List.mem_reverse.mp hd))
    rw [hmap, List.reverse_reverse, ofDigits_natDigitsRevFuel 128 n h]

theorem splitSign_digits {cs : List Char} (hall : cs.all Char.isDigit = true)
    (hne : cs ≠ []) : splitSign cs = (1, cs) := by
  cases cs with
  | nil => exact absurd rfl hne
  | cons c r =>
    rw [List.all_cons, Bool.and_eq_true] at hall
    have h1 : c ≠ '+' := isDigit_ne_plus hall.1
    have h2 : c ≠ '-' := isDigit_ne_minus hall.1
    simp [splitSign, h1, h2]

theorem renderInt_data_nonneg {i : Int} (h : ¬i < 0) :
    (renderInt i).data = renderNatChars i.natAbs := by
  rw [renderInt, if_neg h]
  rfl

theorem renderInt_data_neg {i : Int} (h : i < 0) :
    (renderInt i).data = '-' :: renderNatChars i.natAbs := by
  rw [renderInt, if_pos h, String.data_append]
  rfl

theorem splitSign_renderInt_neg {i : Int} (h : i < 0) :
    splitSign (renderInt i).data = (-1, renderNatChars i.natAbs) := by
  rw [renderInt_data_neg h]
  simp [splitSign]

theorem splitSign_renderInt_nonneg {i : Int} (h : ¬i < 0) :
    splitSign (renderInt i).data = (1, renderNatChars i.natAbs) := by
  rw [renderInt_data_nonneg h]
  exact splitSign_digits (renderNatChars_all_digit _) (renderNatChars_ne_nil _)

theorem parseI64Core_renderNatChars (sign : Int) (n : Nat) (h : n < 10 ^ 128) :
    parseI64Core sign (renderNatChars n)
      = if -(2 ^ 63) ≤ sign * n ∧ sign * n ≤ 2 ^ 63 - 1 then some (sign * n)
        else none := by
  unfold parseI64Core
  rw [parseNatDigits_renderNatChars n h]

theorem parseI64_renderInt (i : Int) (h : i.natAbs < 10 ^ 128) :
    parseI64 (renderInt i)
      = if -(2 ^ 63) ≤ i ∧ i ≤ 2 ^ 63 - 1 then some i else none := by
  by_cases hneg : i < 0
  · have hstep : parseI64 (renderInt i) = parseI64Core (-1) (renderNatChars i.natAbs) := by
      rw [parseI64, splitSign_renderInt_neg hneg]
    have hval : (-1 : Int) * (i.natAbs : Int) = i := by
      rw [Int.ofNat_natAbs_of_nonpos (le_of_lt hneg)]
      ring
    rw [hstep, parseI64Core_renderNatChars _ _ h, hval]
  · have hstep : parseI64 (renderInt i) = parseI64Core 1 (renderNatChars i.natAbs) := by
      rw [parseI64, splitSign_renderInt_nonneg hneg]
    have hval : (1 : Int) * (i.natAbs : Int) = i := by
      rw [Int.natAbs_of_nonneg (not_lt.mp hneg)]
      ring
    rw [hstep, parseI64Core_renderNatChars _ _ h, hval]

theorem splitAtFirst_no_sep {sep : Char → Bool} (cs : List Char)
    (h : ∀ c ∈ cs, sep c = false) : splitAtFirst sep cs = (cs, none) := by
  induction cs with
  | nil => rfl
  | cons c r ih =>
    have hc := h c (List.mem_cons_self c r)
    rw [splitAtFirst, if_neg (by simp [hc]),
      ih fun d hd => h d (List.mem_cons_of_mem _ hd)]

theorem isDigit_sep_eE {c : Char} (h : c.isDigit = true) :
    (decide (c = 'e') || decide (c = 'E')) = false := by
  have h1 : c ≠ 'e' := by intro hEq; subst hEq; revert h; decide
  have h2 : c ≠ 'E' := by intro hEq; subst hEq; revert h; decide
  simp [h1, h2]

theorem isDigit_sep_dot {c : Char} (h : c.isDigit = true) :
    decide (c = '.') = false := by
  have h1 : c ≠ '.' := by intro hEq; subst hEq; revert h; decide
  simp [h1]

theorem isDecimalText_digits {cs : List Char} (hall : cs.all Char.isDigit = true)
    (hne : cs ≠ []) : isDecimalText cs = true := by
  have hdig := List.all_eq_true.mp hall
  have hE : splitAtFirst (fun c => c = 'e' || c = 'E') cs = (cs, none) :=
    splitAtFirst_no_sep cs fun c hc => isDigit_sep_eE (hdig c hc)
  have hDot : splitAtFirst (fun c => c = '.') cs = (cs, none) :=
    splitAtFirst_no_sep cs fun c hc => isDigit_sep_dot (hdig c hc)
  have hempty : cs.isEmpty = false := by
    cases cs with
    | nil => exact absurd rfl hne
    | cons c r => rfl
  simp only [isDecimalText, hE, hDot]
  simp [hempty, hall]

theorem isF64Text_renderInt (i : Int) : isF64Text (renderInt i) = true := by
  have hd : isDecimalText (renderNatChars i.natAbs) = true :=
    isDecimalText_digits (renderNatChars_all_digit _) (renderNatChars_ne_nil _)
  by_cases hneg : i < 0
  · simp only [isF64Text, splitSign_renderInt_neg hneg]
    simp [hd]
  · simp only [isF64Text, splitSign_renderInt_nonneg hneg]
    simp [hd]

/-- C10: a document integer literal decodes to an Int exactly when its
rendered text parses as a signed 64-bit integer; a literal outside the
`i64` range (but within the document format's own `i128` range) falls
through to the float branch and is never decoded as an Int. -/
theorem decode_integer_follows_i64_range :
    ∀ i : Int, -(2 ^ 127) ≤ i → i < 2 ^ 127 →
      ((-(2 ^ 63) ≤ i ∧ i ≤ 2 ^ 63 - 1) →
          decodeScalar (KdlValue.integer i) = Value.int i)
        ∧ (¬(-(2 ^ 63) ≤ i ∧ i ≤ 2 ^ 63 - 1) →
            decodeScalar (KdlValue.integer i) = Value.float ⟨renderInt i⟩
              ∧ ∀ j : Int, decodeScalar (KdlValue.integer i) ≠ Value.int j) := by
  intro i h1 h2
  have habs : i.natAbs < 10 ^ 128 := by
    have hle : i.natAbs ≤ 2 ^ 127 := by omega
    calc i.natAbs ≤ 2 ^ 127 := hle
      _ < 10 ^ 128 := by norm_num
  have hparse := parseI64_renderInt i habs
  constructor
  · intro hr
    simp only [decodeScalar]
    rw [hparse, if_pos hr]
  · intro hr
    have hfail : parseI64 (renderInt i) = none := by rw [hparse, if_neg hr]
    have hf64 : parseF64 (renderInt i) = some ⟨renderInt i⟩ := by
      unfold parseF64
      rw [if_pos (isF64Text_renderInt i)]
    constructor
    · simp only [decodeScalar]
      rw [hfail, hf64]
    · intro j
      simp only [decodeScalar]
      rw [hfail, hf64]
      intro hEq
      exact Value.noConfusion hEq

/-- Witness for C10 at `2 ^ 63`, the first integer above the `i64`
range: it decodes to a Float carrying the rendered text, not an Int. -/
theorem decode_integer_follows_i64_range_witness :
    decodeScalar (KdlValue.integer (2 ^ 63)) = Value.float ⟨renderInt (2 ^ 63)⟩ :=
  ((decode_integer_follows_i64_range (2 ^ 63) (by decide) (by decide)).2 (by decide)).1
